import Mathlib

/-!
# Measurement-Network: shallow embedding and verification

A shallow embedding, in Lean 4, of the core of the Measurement-Network
repository: the bounded JSON result store (`management-api/src/storage.js`),
the job submission route and result listener of the management API
(`management-api/src/index.js`), the worker registry and liveness sweep of the
anchor service (`anchor-service/src/index.js`), and the ping and DNS worker
modules (`modules/ping-module/src/index.js`).

File-system, network and clock effects are made explicit: the current file
contents, the freshly generated identifiers, the current time, and the
success/failure of each I/O step are passed as parameters, and fallible
operations return their outcome explicitly.
-/

namespace MMN

/-- A result message envelope as published by a worker on the bus and consumed
by the management API: `{jobId, type, target, timestamp, status, result}`.
The kind-specific `result` payload is the type parameter `β`. -/
structure Msg (β : Type) where
  jobId : String
  type : String
  target : String
  timestamp : Nat
  status : String
  result : β
  deriving Repr, DecidableEq

/-- A stored measurement record, as written by `JSONStorage.saveMeasurement`:
the JS spread `{...result, _persisted: true, _savedAt, _id}`.  The spread of
the message's own fields is modelled by the `payload` field; `_persisted`,
`_savedAt` and `_id` are the storage metadata added on top. -/
structure Stored (β : Type) where
  payload : Msg β
  persisted : Bool
  savedAt : Nat
  mid : String
  deriving Repr, DecidableEq

/-- `JSONStorage.loadAll`: reads and parses the measurements file; any read or
parse failure is caught inside and yields the empty list.  The raw read
outcome is the `Option` argument (`none` = the file could not be read). -/
def loadAll {β : Type} (raw : Option (List (Stored β))) : List (Stored β) :=
  raw.getD []

/-- `JSONStorage.saveMeasurement`: load the existing data (a failed read is
caught inside `loadAll` and yields `[]`), build the stored record with the
fresh metadata, `unshift` it at the head, `slice(0, 1000)`, and write the file
back.  `writeOk` is the outcome of the `fs.writeFile` call: when the write
throws, the function returns `false` and the file keeps its previous
contents.  Returns the new file contents together with the returned Bool. -/
def saveMeasurement {β : Type} (file : List (Stored β)) (result : Msg β)
    (mid : String) (savedAt : Nat) (readOk writeOk : Bool) :
    List (Stored β) × Bool :=
  let data := if readOk then file else []
  let measurement : Stored β := ⟨result, true, savedAt, mid⟩
  let trimmedData := (measurement :: data).take 1000
  if writeOk then (trimmedData, true) else (file, false)

/-- `JSONStorage.getByType`: load all records, keep those whose `type` field
(spread from the message) equals the requested type, take the first `limit`. -/
def getByType {β : Type} (raw : Option (List (Stored β))) (ty : String)
    (limit : Nat) : List (Stored β) :=
  ((loadAll raw).filter (fun item => item.payload.type = ty)).take limit

/-- `JSONStorage.getRecent`: load all records and take the first `limit`. -/
def getRecent {β : Type} (raw : Option (List (Stored β))) (limit : Nat) :
    List (Stored β) :=
  (loadAll raw).take limit

/-- One append step of the store: the inputs of a `saveMeasurement` call that
are external to the file state (the message, the fresh `_id`, the `_savedAt`
time, and the outcomes of the read and the write). -/
structure AppendInput (β : Type) where
  result : Msg β
  mid : String
  savedAt : Nat
  readOk : Bool
  writeOk : Bool

/-- The file contents after one `saveMeasurement` call. -/
def appendStep {β : Type} (file : List (Stored β)) (i : AppendInput β) :
    List (Stored β) :=
  (saveMeasurement file i.result i.mid i.savedAt i.readOk i.writeOk).1

/-- The file contents after a whole sequence of `saveMeasurement` calls
starting from the empty store. -/
def runAppends {β : Type} (steps : List (AppendInput β)) : List (Stored β) :=
  steps.foldl appendStep []

/-- A job as built by the `POST /api/jobs` route of the management API:
`{id, type, target, timestamp, status: "submitted"}`; the same shape is the
envelope each worker parses off the `mmn.jobs.submit` topic. -/
structure Job where
  id : String
  type : String
  target : String
  timestamp : Nat
  status : String
  deriving Repr, DecidableEq

/-- An entry of the management API's in-memory `jobResults` array: either a
job as pushed by the submit route, or that job after the result listener
merged a result into it with the JS spread `{...job, ...result}` (the spread
keeps the job's `id`, as the result has no `id` field, and lays the result's
fields on top). -/
inductive JobEntry (β : Type) where
  | submitted (job : Job)
  | merged (job : Job) (res : Msg β)
  deriving Repr, DecidableEq

/-- The `id` field of a `jobResults` entry (the result spread never
overwrites `id`, so it is always the originally submitted job's id). -/
def entryId {β : Type} : JobEntry β → String
  | .submitted j => j.id
  | .merged j _ => j.id

/-- Merging a received result into a `jobResults` entry:
`this.jobResults[jobIndex] = {...this.jobResults[jobIndex], ...result}`. -/
def mergeEntry {β : Type} (e : JobEntry β) (r : Msg β) : JobEntry β :=
  match e with
  | .submitted j => .merged j r
  | .merged j _ => .merged j r

/-- The HTTP response of the `POST /api/jobs` route: either
`res.json({success: true, jobId})` or
`res.status(500).json({success: false, error: message})`. -/
inductive SubmitResponse where
  | ok (jobId : String)
  | err (message : String)
  deriving Repr, DecidableEq

/-- The observable outcome of one `POST /api/jobs` call: the new in-memory
`jobResults` array, the HTTP response, and the list of NATS publish calls
attempted on the submit topic (in order). -/
structure SubmitOutcome (β : Type) where
  jobResults : List (JobEntry β)
  response : SubmitResponse
  publishAttempts : List (String × Job)
  deriving Repr, DecidableEq

/-- The `POST /api/jobs` route handler of the management API: build the job
`{id: generateJobId(), type: req.body.type, target: req.body.target,
timestamp: Date.now(), status: "submitted"}` — with no validation of `type`
or `target` — publish it on `mmn.jobs.submit`, push it onto `jobResults`,
and answer `{success: true, jobId}`.  When the publish throws (`publishOk =
false`, with the exception's message `errMsg`), the `catch` answers a 500
error and the push is never reached. -/
def submitJob {β : Type} (jobResults : List (JobEntry β))
    (reqType reqTarget : String) (newId : String) (now : Nat)
    (publishOk : Bool) (errMsg : String) : SubmitOutcome β :=
  let job : Job := ⟨newId, reqType, reqTarget, now, "submitted"⟩
  if publishOk then
    ⟨jobResults ++ [.submitted job], .ok newId, [("mmn.jobs.submit", job)]⟩
  else
    ⟨jobResults, .err errMsg, [("mmn.jobs.submit", job)]⟩

/-- The merge step of the result listener: find the first `jobResults` entry
whose `id` equals the result's `jobId` (`findIndex`) and overwrite that entry
with the spread-merge; when no entry matches, the array is unchanged. -/
def mergeFirst {β : Type} (r : Msg β) : List (JobEntry β) → List (JobEntry β)
  | [] => []
  | e :: es => if entryId e = r.jobId then mergeEntry e r :: es
               else e :: mergeFirst r es

/-- The observable outcome of handling one message of the
`mmn.jobs.result.>` subscription: the merged `jobResults`, the new store
file, the Bool `saveMeasurement` returned, and the list of events broadcast
to the WebSocket clients. -/
structure CorrelateOutcome (β : Type) where
  jobResults : List (JobEntry β)
  file : List (Stored β)
  saveReturned : Bool
  broadcasts : List (Msg β)
  deriving Repr, DecidableEq

/-- The body of `startResultListener` for one parsed result message: merge it
into `jobResults` when a matching job exists, hand it to
`storage.saveMeasurement` (which catches its own failures and returns a
Bool — it never throws), and then broadcast it to the WebSocket clients.
The broadcast is not guarded by the save's outcome. -/
def processResult {β : Type} (jobs : List (JobEntry β))
    (file : List (Stored β)) (result : Msg β) (mid : String) (savedAt : Nat)
    (readOk writeOk : Bool) : CorrelateOutcome β :=
  let jobs' := mergeFirst result jobs
  let saved := saveMeasurement file result mid savedAt readOk writeOk
  ⟨jobs', saved.1, saved.2, [result]⟩

/-- A module announcement as published on `mmn.modules.announce`. -/
structure AnnounceInfo where
  name : String
  version : String
  type : String
  capabilities : List String
  timestamp : Nat
  rfcCompliance : List String
  deriving Repr, DecidableEq

/-- A worker record held in the anchor service's `modules` map:
`{...moduleInfo, lastSeen, healthy, connectionTime}`. -/
structure ModuleRecord where
  info : AnnounceInfo
  lastSeen : Nat
  healthy : Bool
  connectionTime : Nat
  deriving Repr, DecidableEq

/-- The anchor service's `modules` map, keyed by module name. -/
def Registry : Type := String → Option ModuleRecord

/-- `AnchorService.handleModuleAnnouncement`: insert or overwrite the record
keyed by `moduleInfo.name` with `{...moduleInfo, lastSeen: Date.now(),
healthy: true, connectionTime: now}`. -/
def handleModuleAnnouncement (reg : Registry) (info : AnnounceInfo)
    (now : Nat) : Registry :=
  fun n => if n = info.name then some ⟨info, now, true, now⟩ else reg n

/-- One tick of `AnchorService.startHealthMonitoring`'s 10-second interval:
for every record, when `now - lastSeen > 30000` set `healthy = false`
(records inside the 30-second window are untouched; the sweep never sets
`healthy` back to `true`). -/
def healthSweep (reg : Registry) (now : Nat) : Registry :=
  fun n => (reg n).map
    (fun m => if now - m.lastSeen > 30000 then { m with healthy := false }
              else m)

/-- The `result` payload of a ping result message.  The informational
`metadata` object and the `isRealMeasurement` flag are carried verbatim in
the source and omitted here; `errorField` models the `error` field that only
`createErrorResult` adds. -/
structure PingBody where
  rtt : Option Nat
  success : Bool
  packetLoss : Nat
  packetsTransmitted : Nat
  packetsReceived : Nat
  errorField : Option String
  message : String
  deriving Repr, DecidableEq

/-- The reply topic derived from a job id:
`` mmn.jobs.result.<jobId> ``. -/
def replyTopic (jobId : String) : String := "mmn.jobs.result." ++ jobId

/-- `PingModule.createErrorResult`: the `success = false` result message the
worker publishes when its measurement strategy threw. -/
def createErrorResult (job : Job) (errorMessage : String) (now : Nat) :
    Msg PingBody :=
  { jobId := job.id, type := "ping", target := job.target, timestamp := now,
    status := "completed",
    result := { rtt := none, success := false, packetLoss := 100,
                packetsTransmitted := 0, packetsReceived := 0,
                errorField := some errorMessage,
                message := "Ping to " ++ job.target ++ " failed: " ++
                  errorMessage } }

/-- One iteration of `PingModule.startJobProcessing` on a parsed job
envelope, together with the body of `processPingJob`.  The execution of the
measurement strategy (`executeRealPing`, shell and parsing I/O) is the
explicit `exec` outcome: `.ok` is the result message it returned (it may
itself carry `success = false`), `.error` is the message of an exception it
threw, which the `catch` converts into `createErrorResult` with the text
`Ping failed: <message>`.  An envelope whose `type` is not `ping` is ignored
and nothing is published.  Returns the list of `(topic, message)` publishes
performed. -/
def handlePingEnvelope (job : Job) (exec : Except String (Msg PingBody))
    (now : Nat) : List (String × Msg PingBody) :=
  if job.type = "ping" then
    match exec with
    | .ok pingResult => [(replyTopic job.id, { pingResult with jobId := job.id })]
    | .error e =>
        [(replyTopic job.id, createErrorResult job ("Ping failed: " ++ e) now)]
  else []

/-- The seven shell metacharacters removed by `cleanTarget`'s character
class `[;&|` ++ "backtick" ++ `$<>]`. -/
def metaChars : List Char := [';', '&', '|', Char.ofNat 96, '$', '<', '>']

/-- The ECMAScript line terminators, which `.` does not match and which `$`
(without the `m` flag) does not look past. -/
def isLineTerminator (c : Char) : Bool :=
  c = '\n' || c = '\r' || c = Char.ofNat 0x2028 || c = Char.ofNat 0x2029

/-- The JS `replace(/^(https?|ftp):\/\//, '')`: drop one leading protocol
marker (the alternation is greedy, so `https://` wins over `http://`). -/
def stripProtocol (l : List Char) : List Char :=
  if l.take 8 = "https://".toList then l.drop 8
  else if l.take 7 = "http://".toList then l.drop 7
  else if l.take 6 = "ftp://".toList then l.drop 6
  else l

/-- The JS `replace(/\/.*$/, '')`.  In ECMAScript, `.` does not match a line
terminator and `$` (no `m` flag) matches only at the very end of the input,
so the regex matches at the leftmost `/` that has no line terminator
anywhere after it, and removes everything from that `/` on; when every `/`
is followed by a line terminator somewhere, nothing is removed. -/
def stripPath : List Char → List Char
  | [] => []
  | c :: cs =>
      if c = '/' && cs.all (fun d => !(isLineTerminator d)) then []
      else c :: stripPath cs

/-- The JS `replace(/[;&|...$<>]/g, '')` (the character class of the seven
shell metacharacters): remove every occurrence. -/
def removeShellMeta (l : List Char) : List Char :=
  l.filter (fun c => !(metaChars.contains c))

/-- The ECMAScript WhiteSpace and LineTerminator code points removed by
`String.prototype.trim`. -/
def isJsWhitespace (c : Char) : Bool :=
  c = ' ' || c = '\t' || c = '\n' || c = '\r' ||
  c = Char.ofNat 0x0B || c = Char.ofNat 0x0C || c = Char.ofNat 0xA0 ||
  c = Char.ofNat 0x1680 || (Char.ofNat 0x2000 ≤ c && c ≤ Char.ofNat 0x200A) ||
  c = Char.ofNat 0x2028 || c = Char.ofNat 0x2029 || c = Char.ofNat 0x202F ||
  c = Char.ofNat 0x205F || c = Char.ofNat 0x3000 || c = Char.ofNat 0xFEFF

/-- The JS `trim()`: drop leading and trailing whitespace. -/
def jsTrim (l : List Char) : List Char :=
  ((l.dropWhile isJsWhitespace).reverse.dropWhile isJsWhitespace).reverse

/-- `PingModule.cleanTarget`: strip a leading protocol marker, apply the
path-removing replace, delete the shell metacharacters, and trim. -/
def cleanTarget (target : String) : String :=
  ⟨jsTrim (removeShellMeta (stripPath (stripProtocol target.data)))⟩

/-- The shell command `executeRealPing` builds: the platform-specific fixed
ping invocation with the cleaned target interpolated at the end — the
cleaned target is the only request-derived part of the command. -/
def pingCommand (platform : String) (target : String) : String :=
  if platform = "win32" then "ping -n 4 -w 3000 " ++ cleanTarget target
  else "ping -c 4 -W 3 " ++ cleanTarget target

/-- The `result` payload of a DNS result message (`createDNSResult`); the
informational `metadata` object is omitted. -/
structure DNSBody where
  addresses : List String
  resolveTime : Option Nat
  success : Bool
  addressCount : Nat
  recordType : String
  errorCode : Option String
  message : String
  deriving Repr, DecidableEq

/-- A Node `dns` exception as observed by the DNS module: its `code`
(`ENOTFOUND`, `ETIMEOUT`, ...; `""` models an absent code) and `message`. -/
structure DNSErrorInfo where
  code : String
  text : String
  deriving Repr, DecidableEq

/-- One record of a `dns.resolveAny` answer: its `type` and `address`. -/
structure AnyRecord where
  type : String
  address : String
  deriving Repr, DecidableEq

/-- `DNSModule.cleanTarget`: strip a leading protocol marker, apply the
path-removing replace, strip a leading `www.`, and trim. -/
def dnsCleanTarget (target : String) : String :=
  let l := stripPath (stripProtocol target.data)
  let l := if l.take 4 = "www.".toList then l.drop 4 else l
  ⟨jsTrim l⟩

/-- The `[a-zA-Z0-9]` class of `isValidDomain`'s regex (ASCII only). -/
def isAlnumAscii (c : Char) : Bool := c.isAlpha || c.isDigit

/-- One label of `isValidDomain`'s regex,
`[a-zA-Z0-9]([a-zA-Z0-9-]\x7b0,61\x7d[a-zA-Z0-9])?`: between 1 and 63
characters, each alphanumeric or `-`, starting and ending alphanumeric. -/
def isValidLabel (l : List Char) : Bool :=
  match l with
  | [] => false
  | c :: _ =>
      isAlnumAscii c && l.length ≤ 63 &&
      (match l.getLast? with
       | some d => isAlnumAscii d
       | none => false) &&
      l.all (fun d => isAlnumAscii d || d = '-')

/-- Split a character list at every `.` (the separator structure of the
domain regex, whose labels cannot contain `.`). -/
def splitOnDot : List Char → List (List Char)
  | [] => [[]]
  | c :: cs =>
      if c = '.' then [] :: splitOnDot cs
      else
        match splitOnDot cs with
        | [] => [[c]]
        | l :: ls => (c :: l) :: ls

/-- `DNSModule.isValidDomain`: falsy/empty input is invalid; otherwise clean
the target, require length 1..253, and require the cleaned domain to match
`^label(\.label)+$` — i.e. at least two dot-separated valid labels. -/
def isValidDomain (domain : String) : Bool :=
  if domain = "" then false
  else
    let cleanDomain := dnsCleanTarget domain
    if cleanDomain.length < 1 || cleanDomain.length > 253 then false
    else
      let labels := splitOnDot cleanDomain.data
      decide (2 ≤ labels.length) && labels.all isValidLabel

/-- `DNSModule.createDNSResult` (the `metadata` object omitted; the fresh
`dns_<ts>_<rand>` job id is the `tmpId` argument). -/
def createDNSResult (target : String) (success : Bool)
    (addresses : List String) (resolveTime : Option Nat) (message : String)
    (recordType : String) (errorCode : Option String) (tmpId : String)
    (ts : Nat) : Msg DNSBody :=
  { jobId := tmpId, type := "dns", target := target, timestamp := ts,
    status := "completed",
    result := { addresses := addresses, resolveTime := resolveTime,
                success := success, addressCount := addresses.length,
                recordType := recordType, errorCode := errorCode,
                message := message } }

/-- The success message template of `executeRealDNSLookup`. -/
def resolvedMessage (ct : String) (n : Nat) (recordType : String)
    (rt : Nat) : String :=
  "Resolved " ++ ct ++ " to " ++ toString n ++ " IP addresses (" ++
    recordType ++ ") in " ++ toString rt ++ "ms"

/-- `DNSModule.executeRealDNSLookup`.  The three resolver calls
(`dns.resolve4`, `dns.resolve6`, `dns.resolveAny`) are I/O and enter as the
explicit outcomes `r4`, `r6`, `rAny`; `resolveTime` is the measured elapsed
time.  Invalid domains are answered without resolving; otherwise the
fallback chain tries A, then AAAA, then ANY (filtered to A/AAAA records);
when all three fail, the A-lookup's original error is categorized into an
`errorCode` and a `success = false` result. -/
def executeRealDNSLookup (target : String)
    (r4 r6 : Except DNSErrorInfo (List String))
    (rAny : Except DNSErrorInfo (List AnyRecord)) (tmpId : String) (ts : Nat)
    (resolveTime : Nat) : Msg DNSBody :=
  if !(isValidDomain target) then
    createDNSResult target false [] none "Invalid domain format" "A" none
      tmpId ts
  else
    let ct := dnsCleanTarget target
    match r4 with
    | .ok addresses =>
        createDNSResult target true addresses (some resolveTime)
          (resolvedMessage ct addresses.length "A" resolveTime) "A" none
          tmpId ts
    | .error e1 =>
        match r6 with
        | .ok addresses =>
            createDNSResult target true addresses (some resolveTime)
              (resolvedMessage ct addresses.length "AAAA" resolveTime) "AAAA"
              none tmpId ts
        | .error _ =>
            match rAny with
            | .ok anyRecords =>
                let addresses :=
                  (anyRecords.filter
                    (fun rec => rec.type = "A" || rec.type = "AAAA")).map
                    (fun rec => rec.address)
                createDNSResult target true addresses (some resolveTime)
                  (resolvedMessage ct addresses.length "ANY" resolveTime)
                  "ANY" none tmpId ts
            | .error _ =>
                let ec :=
                  if e1.code = "ENOTFOUND" then "DOMAIN_NOT_FOUND"
                  else if e1.code = "ETIMEOUT" then "TIMEOUT"
                  else if e1.code = "ECONNREFUSED" then "CONNECTION_REFUSED"
                  else if e1.code = "ESERVFAIL" then "SERVER_FAILURE"
                  else if e1.code = "ENODATA" then "NO_DATA"
                  else if e1.code = "" then "UNKNOWN"
                  else e1.code
                let em :=
                  if e1.code = "ENOTFOUND" then "Domain not found: " ++ ct
                  else if e1.code = "ETIMEOUT" then
                    "DNS resolution timeout - no response from DNS servers"
                  else if e1.code = "ECONNREFUSED" then
                    "DNS server refused connection"
                  else if e1.code = "ESERVFAIL" then "DNS server failure"
                  else if e1.code = "ENODATA" then
                    "Domain exists but has no DNS records"
                  else "DNS error: " ++ e1.text
                createDNSResult ct false [] none em "A" (some ec) tmpId ts

/-- One iteration of `DNSModule.startJobProcessing` on a parsed job envelope
together with `processDNSJob`: envelopes whose `type` is not `dns` are
ignored; a matching job is resolved and the result — its `jobId` overwritten
with the job's id — is published on the job's reply topic. -/
def handleDNSEnvelope (job : Job) (r4 r6 : Except DNSErrorInfo (List String))
    (rAny : Except DNSErrorInfo (List AnyRecord)) (tmpId : String) (ts : Nat)
    (resolveTime : Nat) : List (String × Msg DNSBody) :=
  if job.type = "dns" then
    let dnsResult := executeRealDNSLookup job.target r4 r6 rAny tmpId ts
      resolveTime
    [(replyTopic job.id, { dnsResult with jobId := job.id })]
  else []

end MMN

namespace MMN

theorem saveMeasurement_length_le {β : Type} (file : List (Stored β))
    (r : Msg β) (mid : String) (savedAt : Nat) (readOk writeOk : Bool)
    (h : file.length ≤ 1000) :
    (saveMeasurement file r mid savedAt readOk writeOk).1.length ≤ 1000 := by
  unfold saveMeasurement
  by_cases hw : writeOk = true
  · simp [hw]
  · simp [hw, h]

theorem foldl_appendStep_length_le {β : Type} (steps : List (AppendInput β)) :
    ∀ file : List (Stored β), file.length ≤ 1000 →
      (steps.foldl appendStep file).length ≤ 1000 := by
  induction steps with
  | nil => intro file h; simpa using h
  | cons s rest ih =>
      intro file h
      simp only [List.foldl_cons]
      exact ih _ (saveMeasurement_length_le file s.result s.mid s.savedAt
        s.readOk s.writeOk h)

/-- Claim C1: along every sequence of append operations starting from the empty
store, after each append the store holds at most 1000 records; a successful
append puts the new record at the head (newest-first); and the evicted
records are exactly the suffix (the tail, i.e. the oldest by insertion order)
that the cap cuts off: the pre-truncation sequence is the new file contents
followed by the dropped tail. -/
theorem store_cap_invariant {β : Type} (steps : List (AppendInput β)) :
    (runAppends steps).length ≤ 1000 ∧
    (∀ (file : List (Stored β)) (r : Msg β) (mid : String) (savedAt : Nat),
      (saveMeasurement file r mid savedAt true true).1.head? =
        some ⟨r, true, savedAt, mid⟩ ∧
      (⟨r, true, savedAt, mid⟩ : Stored β) :: file =
        (saveMeasurement file r mid savedAt true true).1 ++
          ((⟨r, true, savedAt, mid⟩ : Stored β) :: file).drop 1000) := by
  constructor
  · exact foldl_appendStep_length_le steps [] (by simp)
  · intro file r mid savedAt
    constructor
    · simp [saveMeasurement]
    · simp only [saveMeasurement, if_pos rfl]
      exact (List.take_append_drop 1000 _).symm

/-- Witness for C1 at a concrete input: a two-step append run stays within
the cap, and a concrete successful append puts the new record at the head
with the pre-truncation list decomposing as kept-prefix ++ dropped-tail. -/
theorem store_cap_invariant_witness :
    (runAppends [⟨⟨"j1", "ping", "t", 0, "completed", ()⟩, "m1", 1, true, true⟩,
                 ⟨⟨"j2", "ping", "t", 2, "completed", ()⟩, "m2", 3, true, true⟩]).length
        ≤ 1000 ∧
    (saveMeasurement ([] : List (Stored Unit))
        ⟨"j1", "ping", "t", 0, "completed", ()⟩ "m1" 1 true true).1.head? =
      some ⟨⟨"j1", "ping", "t", 0, "completed", ()⟩, true, 1, "m1"⟩ := by
  refine ⟨(store_cap_invariant _).1, ?_⟩
  exact ((store_cap_invariant ([] : List (AppendInput Unit))).2 []
    ⟨"j1", "ping", "t", 0, "completed", ()⟩ "m1" 1).1

/-- Claim C6: `saveMeasurement` returns exactly the outcome of the file write;
when it returns `false` the stored sequence is unchanged; and it never
deduplicates: two successive successful appends of the very same message
(hence the same `jobId`) leave two distinct stored records at the head, each
carrying its own fresh `_id`. -/
theorem store_append_no_dedup {β : Type} (file : List (Stored β)) (r : Msg β)
    (mid : String) (savedAt : Nat) (readOk writeOk : Bool) :
    (saveMeasurement file r mid savedAt readOk writeOk).2 = writeOk ∧
    (writeOk = false →
      (saveMeasurement file r mid savedAt readOk writeOk).1 = file) ∧
    (∀ (mid2 : String) (savedAt2 : Nat),
      ((saveMeasurement (saveMeasurement file r mid savedAt true true).1
          r mid2 savedAt2 true true).1.take 2 =
        [⟨r, true, savedAt2, mid2⟩, ⟨r, true, savedAt, mid⟩])) := by
  refine ⟨?_, ?_, ?_⟩
  · unfold saveMeasurement
    by_cases hw : writeOk = true <;> simp [hw]
  · intro hw
    simp [saveMeasurement, hw]
  · intro mid2 savedAt2
    simp [saveMeasurement, List.take_take]

/-- Witness for C6 at a concrete input: a failed write returns `false` and
leaves the store unchanged, and appending the same message twice (with fresh
ids `m1`, `m2`) yields two stored records for the one `jobId`. -/
theorem store_append_no_dedup_witness :
    (saveMeasurement ([] : List (Stored Unit))
        ⟨"j1", "ping", "t", 0, "completed", ()⟩ "m1" 1 true false).2 = false ∧
    (saveMeasurement ([] : List (Stored Unit))
        ⟨"j1", "ping", "t", 0, "completed", ()⟩ "m1" 1 true false).1 = [] ∧
    ((saveMeasurement (saveMeasurement ([] : List (Stored Unit))
          ⟨"j1", "ping", "t", 0, "completed", ()⟩ "m1" 1 true true).1
        ⟨"j1", "ping", "t", 0, "completed", ()⟩ "m2" 2 true true).1.take 2 =
      [⟨⟨"j1", "ping", "t", 0, "completed", ()⟩, true, 2, "m2"⟩,
       ⟨⟨"j1", "ping", "t", 0, "completed", ()⟩, true, 1, "m1"⟩]) := by
  have h := store_append_no_dedup ([] : List (Stored Unit))
    ⟨"j1", "ping", "t", 0, "completed", ()⟩ "m1" 1 true false
  exact ⟨h.1, h.2.1 rfl, h.2.2 "m2" 2⟩

/-- Claim C8: each store query (`getByType`, `getRecent`) returns a sequence
that is a subsequence of the stored (newest-first) order, holds at most
`limit` records, and is empty rather than an error when the underlying file
cannot be read (`raw = none`) or when nothing matches the requested type. -/
theorem store_query_bounded {β : Type} (raw : Option (List (Stored β)))
    (ty : String) (limit : Nat) :
    (getByType raw ty limit).Sublist (loadAll raw) ∧
    (getByType raw ty limit).length ≤ limit ∧
    (getRecent raw limit).Sublist (loadAll raw) ∧
    (getRecent raw limit).length ≤ limit ∧
    getByType (none : Option (List (Stored β))) ty limit = [] ∧
    getRecent (none : Option (List (Stored β))) limit = [] ∧
    ((∀ item ∈ loadAll raw, item.payload.type ≠ ty) →
      getByType raw ty limit = []) := by
  refine ⟨?_, ?_, ?_, ?_, ?_, ?_, ?_⟩
  · exact ((List.take_sublist _ _).trans (List.filter_sublist _))
  · exact List.length_take_le _ _
  · exact List.take_sublist _ _
  · exact List.length_take_le _ _
  · simp [getByType, loadAll]
  · simp [getRecent, loadAll]
  · intro h
    unfold getByType
    have : (loadAll raw).filter (fun item => item.payload.type = ty) = [] := by
      refine List.filter_eq_nil_iff.mpr ?_
      intro a ha
      simpa using h a ha
    simp [this]

/-- Witness for C8 at a concrete input: a store holding one `ping` record
yields an empty answer for a `dns` query. -/
theorem store_query_bounded_witness :
    getByType (some [⟨⟨"j1", "ping", "t", 0, "completed", ()⟩, true, 1, "m1"⟩])
      "dns" 5 = [] := by
  refine (store_query_bounded
    (some [⟨⟨"j1", "ping", "t", 0, "completed", ()⟩, true, 1, "m1"⟩])
    "dns" 5).2.2.2.2.2.2 ?_
  intro item hitem
  simp [loadAll] at hitem
  subst hitem
  decide

/-- Counterexample to claim C3: a request whose `type` is `bogus` (not a
recognized probe type) and whose `target` is empty is not rejected — with
the publish succeeding, it is acknowledged with `{success: true, jobId}`,
recorded in `jobResults`, and published on the submit topic, so no
`UnsupportedKind` or `InvalidTarget` rejection happens. -/
theorem submitJob_no_validation_counterexample :
    (submitJob ([] : List (JobEntry Unit)) "bogus" "" "job_1" 0 true
        "e").response = .ok "job_1" ∧
    (submitJob ([] : List (JobEntry Unit)) "bogus" "" "job_1" 0 true
        "e").jobResults =
      [.submitted ⟨"job_1", "bogus", "", 0, "submitted"⟩] ∧
    (submitJob ([] : List (JobEntry Unit)) "bogus" "" "job_1" 0 true
        "e").publishAttempts =
      [("mmn.jobs.submit", ⟨"job_1", "bogus", "", 0, "submitted"⟩)] := by
  refine ⟨rfl, rfl, rfl⟩

/-- Claim C3 (amended): the `POST /api/jobs` route performs no validation of
`kind` or `target`: every request — an unrecognized kind and an empty target
included — is assigned the fresh id, published on the submit topic,
recorded, and acknowledged with the job id whenever the publish succeeds. -/
theorem submitJob_accepts_everything {β : Type}
    (jobResults : List (JobEntry β)) (reqType reqTarget newId : String)
    (now : Nat) (errMsg : String) :
    (submitJob jobResults reqType reqTarget newId now true errMsg).response =
      .ok newId ∧
    (submitJob jobResults reqType reqTarget newId now true
        errMsg).jobResults =
      jobResults ++ [.submitted ⟨newId, reqType, reqTarget, now,
        "submitted"⟩] ∧
    (submitJob jobResults reqType reqTarget newId now true
        errMsg).publishAttempts =
      [("mmn.jobs.submit", ⟨newId, reqType, reqTarget, now, "submitted"⟩)] :=
  ⟨rfl, rfl, rfl⟩

/-- Claim C7: each `POST /api/jobs` call attempts the publish exactly once
(no retry); when the publish fails, the error surfaces as the 500 response
carrying the exception's message and the job is not recorded; when it
succeeds, the job is appended to the local table and its id is returned. -/
theorem submitJob_publish_failure {β : Type}
    (jobResults : List (JobEntry β)) (reqType reqTarget newId : String)
    (now : Nat) (publishOk : Bool) (errMsg : String) :
    (submitJob jobResults reqType reqTarget newId now publishOk
        errMsg).publishAttempts.length = 1 ∧
    (publishOk = false →
      (submitJob jobResults reqType reqTarget newId now publishOk
          errMsg).response = .err errMsg ∧
      (submitJob jobResults reqType reqTarget newId now publishOk
          errMsg).jobResults = jobResults) ∧
    (publishOk = true →
      (submitJob jobResults reqType reqTarget newId now publishOk
          errMsg).response = .ok newId ∧
      (submitJob jobResults reqType reqTarget newId now publishOk
          errMsg).jobResults =
        jobResults ++ [.submitted ⟨newId, reqType, reqTarget, now,
          "submitted"⟩]) := by
  refine ⟨?_, ?_, ?_⟩
  · cases publishOk <;> rfl
  · intro h; subst h; exact ⟨rfl, rfl⟩
  · intro h; subst h; exact ⟨rfl, rfl⟩

/-- Witness for C7 at a concrete input: a failed publish answers the error
and records nothing, and a successful publish records the job. -/
theorem submitJob_publish_failure_witness :
    (submitJob ([] : List (JobEntry Unit)) "ping" "8.8.8.8" "job_2" 5 false
        "conn lost").response = .err "conn lost" ∧
    (submitJob ([] : List (JobEntry Unit)) "ping" "8.8.8.8" "job_2" 5 false
        "conn lost").jobResults = [] ∧
    (submitJob ([] : List (JobEntry Unit)) "ping" "8.8.8.8" "job_2" 5 true
        "conn lost").jobResults =
      [.submitted ⟨"job_2", "ping", "8.8.8.8", 5, "submitted"⟩] := by
  have hf := submitJob_publish_failure ([] : List (JobEntry Unit)) "ping"
    "8.8.8.8" "job_2" 5 false "conn lost"
  have ht := submitJob_publish_failure ([] : List (JobEntry Unit)) "ping"
    "8.8.8.8" "job_2" 5 true "conn lost"
  exact ⟨(hf.2.1 rfl).1, (hf.2.1 rfl).2, by simpa using (ht.2.2 rfl).2⟩

/-- Claim C5: the result listener broadcasts every received result exactly
once to the live listeners and always hands it to the store — also when no
recorded job matches its `jobId`, and also when the store's write fails (in
which case the file is unchanged but the broadcast still happens). -/
theorem processResult_never_drops {β : Type} (jobs : List (JobEntry β))
    (file : List (Stored β)) (result : Msg β) (mid : String) (savedAt : Nat)
    (readOk writeOk : Bool) :
    (processResult jobs file result mid savedAt readOk
        writeOk).broadcasts = [result] ∧
    (processResult jobs file result mid savedAt readOk writeOk).file =
      (saveMeasurement file result mid savedAt readOk writeOk).1 ∧
    (writeOk = true →
      (processResult jobs file result mid savedAt readOk
          writeOk).file.head? = some ⟨result, true, savedAt, mid⟩) ∧
    (writeOk = false →
      (processResult jobs file result mid savedAt readOk writeOk).file =
        file) := by
  refine ⟨rfl, rfl, ?_, ?_⟩
  · intro h; subst h
    cases readOk <;> simp [processResult, saveMeasurement]
  · intro h; subst h
    simp [processResult, saveMeasurement]

/-- Witness for C5 at a concrete input: with an empty job table (no matching
job) and a failing write, the result is still broadcast once and the store
file is left unchanged. -/
theorem processResult_never_drops_witness :
    (processResult ([] : List (JobEntry Unit)) []
        ⟨"jX", "ping", "t", 0, "completed", ()⟩ "m1" 1 true
        false).broadcasts = [⟨"jX", "ping", "t", 0, "completed", ()⟩] ∧
    (processResult ([] : List (JobEntry Unit)) []
        ⟨"jX", "ping", "t", 0, "completed", ()⟩ "m1" 1 true false).file =
      [] ∧
    (processResult ([] : List (JobEntry Unit)) []
        ⟨"jX", "ping", "t", 0, "completed", ()⟩ "m1" 1 true
        true).file.head? =
      some ⟨⟨"jX", "ping", "t", 0, "completed", ()⟩, true, 1, "m1"⟩ := by
  have hf := processResult_never_drops ([] : List (JobEntry Unit)) []
    ⟨"jX", "ping", "t", 0, "completed", ()⟩ "m1" 1 true false
  have ht := processResult_never_drops ([] : List (JobEntry Unit)) []
    ⟨"jX", "ping", "t", 0, "completed", ()⟩ "m1" 1 true true
  exact ⟨hf.1, hf.2.2.2 rfl, ht.2.2.1 rfl⟩

/-- Claim C4: an announcement inserts or overwrites the record keyed by the
module's name with `lastSeen = now` and `healthy = true`, leaving every
other record alone; a sweep leaves a record untouched while its `lastSeen`
is within the 30-second window, sets `healthy = false` exactly when the
window is exceeded, and never turns an unhealthy record healthy again. -/
theorem registry_liveness (reg : Registry) (info : AnnounceInfo) (now : Nat) :
    handleModuleAnnouncement reg info now info.name =
      some ⟨info, now, true, now⟩ ∧
    (∀ n, n ≠ info.name → handleModuleAnnouncement reg info now n = reg n) ∧
    (∀ n m, reg n = some m →
      (now - m.lastSeen ≤ 30000 → healthSweep reg now n = some m) ∧
      (now - m.lastSeen > 30000 →
        healthSweep reg now n = some { m with healthy := false }) ∧
      (m.healthy = false → ∀ m', healthSweep reg now n = some m' →
        m'.healthy = false)) ∧
    (∀ n, reg n = none → healthSweep reg now n = none) := by
  refine ⟨?_, ?_, ?_, ?_⟩
  · simp [handleModuleAnnouncement]
  · intro n hn
    simp [handleModuleAnnouncement, hn]
  · intro n m hm
    refine ⟨?_, ?_, ?_⟩
    · intro hwin
      have : ¬ (now - m.lastSeen > 30000) := by omega
      simp [healthSweep, hm, this]
    · intro hold
      simp [healthSweep, hm, hold]
    · intro hunh m' hm'
      simp only [healthSweep, hm, Option.map_some] at hm'
      by_cases hold : now - m.lastSeen > 30000
      · simp [hold] at hm'
        subst hm'
        rfl
      · simp [hold] at hm'
        subst hm'
        exact hunh
  · intro n hn
    simp [healthSweep, hn]

/-- Witness for C4 at a concrete input: a freshly announced record is
healthy with `lastSeen = 100`; a sweep at `now = 30100` (exactly at the
window) leaves it healthy; a sweep at `now = 30101` flips it to unhealthy;
and a later sweep keeps an unhealthy record unhealthy. -/
theorem registry_liveness_witness :
    (handleModuleAnnouncement (fun _ => none)
        ⟨"ping-module", "1.0.0", "ping", [], 100, []⟩ 100) "ping-module" =
      some ⟨⟨"ping-module", "1.0.0", "ping", [], 100, []⟩, 100, true, 100⟩ ∧
    healthSweep
        (fun n => if n = "ping-module" then
          some ⟨⟨"ping-module", "1.0.0", "ping", [], 100, []⟩, 100, true, 100⟩
          else none) 30100 "ping-module" =
      some ⟨⟨"ping-module", "1.0.0", "ping", [], 100, []⟩, 100, true, 100⟩ ∧
    healthSweep
        (fun n => if n = "ping-module" then
          some ⟨⟨"ping-module", "1.0.0", "ping", [], 100, []⟩, 100, true, 100⟩
          else none) 30101 "ping-module" =
      some ⟨⟨"ping-module", "1.0.0", "ping", [], 100, []⟩, 100, false,
        100⟩ ∧
    (∀ m', healthSweep
        (fun n => if n = "ping-module" then
          some ⟨⟨"ping-module", "1.0.0", "ping", [], 100, []⟩, 100, false,
            100⟩
          else none) 70000 "ping-module" = some m' →
      m'.healthy = false) := by
  refine ⟨?_, ?_, ?_, ?_⟩
  · exact (registry_liveness (fun _ => none)
      ⟨"ping-module", "1.0.0", "ping", [], 100, []⟩ 100).1
  · exact ((registry_liveness _ ⟨"x", "", "", [], 0, []⟩ 30100).2.2.1
      "ping-module"
      ⟨⟨"ping-module", "1.0.0", "ping", [], 100, []⟩, 100, true, 100⟩
      (by simp)).1 (by decide)
  · exact ((registry_liveness _ ⟨"x", "", "", [], 0, []⟩ 30101).2.2.1
      "ping-module"
      ⟨⟨"ping-module", "1.0.0", "ping", [], 100, []⟩, 100, true, 100⟩
      (by simp)).2.1 (by decide)
  · exact ((registry_liveness _ ⟨"x", "", "", [], 0, []⟩ 70000).2.2.1
      "ping-module"
      ⟨⟨"ping-module", "1.0.0", "ping", [], 100, []⟩, 100, false, 100⟩
      (by simp)).2.2 rfl

/-- Claim C2: on a job envelope whose `type` is `ping`, the worker publishes
exactly one result on the reply topic `mmn.jobs.result.<jobId>`, the
published message carrying the job's id — and when the measurement strategy
threw, that one published result has `success = false`; on an envelope of
any other `type`, the worker publishes nothing. -/
theorem ping_worker_exactly_one_result (job : Job)
    (exec : Except String (Msg PingBody)) (now : Nat) :
    (job.type = "ping" →
      (handlePingEnvelope job exec now).length = 1 ∧
      (∀ p ∈ handlePingEnvelope job exec now,
        p.1 = "mmn.jobs.result." ++ job.id ∧ p.2.jobId = job.id) ∧
      (∀ e, exec = .error e →
        ∃ m, handlePingEnvelope job exec now =
            [("mmn.jobs.result." ++ job.id, m)] ∧
          m.result.success = false)) ∧
    (job.type ≠ "ping" → handlePingEnvelope job exec now = []) := by
  constructor
  · intro hty
    refine ⟨?_, ?_, ?_⟩
    · cases exec <;> simp [handlePingEnvelope, hty]
    · intro p hp
      cases exec <;>
        simp [handlePingEnvelope, hty, replyTopic, createErrorResult] at hp <;>
        simp [hp, replyTopic]
    · intro e he
      subst he
      exact ⟨createErrorResult job ("Ping failed: " ++ e) now,
        by simp [handlePingEnvelope, hty, replyTopic], rfl⟩
  · intro hty
    simp [handlePingEnvelope, hty]

/-- Witness for C2 at concrete inputs: a `ping` job whose strategy threw
yields exactly one published result, on the job's reply topic, with
`success = false`; a `dns` envelope received by the ping worker yields no
publish at all. -/
theorem ping_worker_exactly_one_result_witness :
    (handlePingEnvelope ⟨"jA", "ping", "8.8.8.8", 0, "submitted"⟩
        (.error "boom") 7).length = 1 ∧
    (∃ m, handlePingEnvelope ⟨"jA", "ping", "8.8.8.8", 0, "submitted"⟩
        (.error "boom") 7 = [("mmn.jobs.result." ++ "jA", m)] ∧
      m.result.success = false) ∧
    handlePingEnvelope ⟨"jB", "dns", "x.com", 0, "submitted"⟩
        (.error "boom") 7 = [] := by
  have hp := ping_worker_exactly_one_result
    ⟨"jA", "ping", "8.8.8.8", 0, "submitted"⟩ (.error "boom") 7
  have hd := ping_worker_exactly_one_result
    ⟨"jB", "dns", "x.com", 0, "submitted"⟩ (.error "boom") 7
  exact ⟨(hp.1 rfl).1, (hp.1 rfl).2.2 "boom" rfl, hd.2 (by decide)⟩

theorem mem_of_mem_jsTrim {c : Char} {l : List Char} (h : c ∈ jsTrim l) :
    c ∈ l := by
  unfold jsTrim at h
  rw [List.mem_reverse] at h
  have h1 : c ∈ (l.dropWhile isJsWhitespace).reverse :=
    (List.dropWhile_sublist _).mem h
  rw [List.mem_reverse] at h1
  exact (List.dropWhile_sublist _).mem h1

theorem mem_of_mem_stripProtocol {c : Char} {l : List Char}
    (h : c ∈ stripProtocol l) : c ∈ l := by
  unfold stripProtocol at h
  split at h
  · exact List.mem_of_mem_drop h
  · split at h
    · exact List.mem_of_mem_drop h
    · split at h
      · exact List.mem_of_mem_drop h
      · exact h

theorem slash_notin_stripPath (l : List Char)
    (h : ∀ c ∈ l, isLineTerminator c = false) : '/' ∉ stripPath l := by
  induction l with
  | nil => simp [stripPath]
  | cons c cs ih =>
      have hall : cs.all (fun d => !(isLineTerminator d)) = true := by
        rw [List.all_eq_true]
        intro d hd
        simp [h d (List.mem_cons_of_mem _ hd)]
      by_cases hc : c = '/'
      · subst hc
        simp [stripPath, hall]
      · have hcond : (c = '/' && cs.all (fun d => !(isLineTerminator d)))
            = false := by
          simp [hc]
        simp only [stripPath, hcond, Bool.false_eq_true, if_false,
          List.mem_cons, not_or]
        exact ⟨fun e => hc e.symm,
          ih (fun d hd => h d (List.mem_cons_of_mem _ hd))⟩

theorem meta_notin_cleanTarget (s : String) :
    ∀ c ∈ (cleanTarget s).data, metaChars.contains c = false := by
  intro c hc
  have h2 : c ∈ removeShellMeta (stripPath (stripProtocol s.data)) :=
    mem_of_mem_jsTrim hc
  have h3 := (List.mem_filter.mp h2).2
  simpa using h3

theorem slash_notin_cleanTarget (s : String)
    (h : ∀ c ∈ s.data, isLineTerminator c = false) :
    '/' ∉ (cleanTarget s).data := by
  intro hmem
  have h2 : '/' ∈ removeShellMeta (stripPath (stripProtocol s.data)) :=
    mem_of_mem_jsTrim hmem
  have h3 : '/' ∈ stripPath (stripProtocol s.data) :=
    (List.mem_filter.mp h2).1
  exact slash_notin_stripPath _
    (fun c hc => h c (mem_of_mem_stripProtocol hc)) h3

/-- Counterexample to claim C10: the JS regex `/\/.*$/` cannot match across
a line terminator (ECMAScript `.` excludes line terminators and `$` without
the `m` flag matches only at the very end), so on the input `a/b\nc` the
path-removing replace removes nothing: `cleanTarget` returns the input
unchanged, which still contains a `/` followed by a path remainder —
refuting the for-every-input-string claim. -/
theorem cleanTarget_counterexample :
    cleanTarget "a/b\nc" = "a/b\nc" ∧
    '/' ∈ (cleanTarget "a/b\nc").data := by
  constructor
  · decide
  · decide

/-- Claim C10 (amended): for every input string, `cleanTarget` returns a
string containing none of the shell metacharacters `;&|$<>` and backtick;
for every input string free of line terminators, the result moreover
contains no `/` at all — hence no path component and no leading `http://`,
`https://` or `ftp://` marker (for inputs with a line terminator after the
first `/`, the JS replace leaves the `/` and what follows in place); and the
sanitized string is the only request-derived part interpolated into the
shell ping command. -/
theorem cleanTarget_sanitized (s : String) (platform : String) :
    (∀ c ∈ (cleanTarget s).data, metaChars.contains c = false) ∧
    ((∀ c ∈ s.data, isLineTerminator c = false) →
      '/' ∉ (cleanTarget s).data ∧
      ¬ List.IsPrefix "http://".data (cleanTarget s).data ∧
      ¬ List.IsPrefix "https://".data (cleanTarget s).data ∧
      ¬ List.IsPrefix "ftp://".data (cleanTarget s).data) ∧
    pingCommand platform s =
      (if platform = "win32" then "ping -n 4 -w 3000 "
       else "ping -c 4 -W 3 ") ++ cleanTarget s := by
  refine ⟨meta_notin_cleanTarget s, ?_, ?_⟩
  · intro h
    have hs := slash_notin_cleanTarget s h
    refine ⟨hs, ?_, ?_, ?_⟩
    all_goals
      rintro ⟨t, ht⟩
      apply hs
      rw [← ht]
      exact List.mem_append_left _ (by decide)
  · by_cases hp : platform = "win32" <;> simp [pingCommand, hp]

/-- Witness for C10 at a concrete input: a protocol-marked target with a
path and a `;` is reduced to a bare host — no slash, no protocol marker, no
metacharacter. -/
theorem cleanTarget_sanitized_witness :
    '/' ∉ (cleanTarget "http://example.com/path;x").data ∧
    ¬ List.IsPrefix "http://".data
        (cleanTarget "http://example.com/path;x").data ∧
    (∀ c ∈ (cleanTarget "http://example.com/path;x").data,
      metaChars.contains c = false) := by
  have h := cleanTarget_sanitized "http://example.com/path;x" "linux"
  exact ⟨(h.2.1 (by decide)).1, (h.2.1 (by decide)).2.1, h.1⟩

/-- Claim C9: a `dns` job whose (valid) target fails every resolver step
with an `ENOTFOUND` A-lookup yields exactly one published result on the
job's reply topic with `success = false` and `errorCode =
"DOMAIN_NOT_FOUND"`, and appending that result to the store puts at its
head a record whose payload still carries `errorCode = "DOMAIN_NOT_FOUND"`. -/
theorem dns_domain_not_found (job : Job) (e1 e2 : DNSErrorInfo)
    (e3 : DNSErrorInfo) (tmpId : String) (ts rt : Nat) (mid : String)
    (savedAt : Nat) (file : List (Stored DNSBody))
    (hty : job.type = "dns") (hvalid : isValidDomain job.target = true)
    (hcode : e1.code = "ENOTFOUND") :
    ∃ m, handleDNSEnvelope job (.error e1) (.error e2) (.error e3) tmpId ts
        rt = [("mmn.jobs.result." ++ job.id, m)] ∧
      m.result.success = false ∧
      m.result.errorCode = some "DOMAIN_NOT_FOUND" ∧
      (saveMeasurement file m mid savedAt true true).1.head? =
        some ⟨m, true, savedAt, mid⟩ ∧
      (∀ st, (saveMeasurement file m mid savedAt true true).1.head? =
          some st → st.payload.result.errorCode = some "DOMAIN_NOT_FOUND") := by
  refine ⟨{ executeRealDNSLookup job.target (.error e1) (.error e2)
    (.error e3) tmpId ts rt with jobId := job.id }, ?_, ?_, ?_, ?_, ?_⟩
  · simp [handleDNSEnvelope, hty, replyTopic]
  · simp [executeRealDNSLookup, hvalid, hcode, createDNSResult]
  · simp [executeRealDNSLookup, hvalid, hcode, createDNSResult]
  · simp [saveMeasurement]
  · intro st hst
    simp [saveMeasurement] at hst
    rw [← hst]
    simp [executeRealDNSLookup, hvalid, hcode, createDNSResult]

/-- Witness for C9 at the spec's own scenario input: the job
`{kind: "dns", target: "nonexistent.invalid"}` with all three resolver
calls failing (`ENOTFOUND` on the A lookup) publishes one result with
`success = false` and `errorCode = "DOMAIN_NOT_FOUND"`, whose stored record
keeps the error code. -/
theorem dns_domain_not_found_witness :
    ∃ m, handleDNSEnvelope ⟨"jD", "dns", "nonexistent.invalid", 0,
        "submitted"⟩ (.error ⟨"ENOTFOUND", "nf"⟩) (.error ⟨"ENOTFOUND", "nf"⟩)
        (.error ⟨"ENOTFOUND", "nf"⟩) "dns_tmp" 3 12 =
        [("mmn.jobs.result." ++ "jD", m)] ∧
      m.result.success = false ∧
      m.result.errorCode = some "DOMAIN_NOT_FOUND" ∧
      (saveMeasurement ([] : List (Stored DNSBody)) m "m9" 4 true
          true).1.head? = some ⟨m, true, 4, "m9"⟩ ∧
      (∀ st, (saveMeasurement ([] : List (Stored DNSBody)) m "m9" 4 true
          true).1.head? = some st →
        st.payload.result.errorCode = some "DOMAIN_NOT_FOUND") :=
  dns_domain_not_found ⟨"jD", "dns", "nonexistent.invalid", 0, "submitted"⟩
    ⟨"ENOTFOUND", "nf"⟩ ⟨"ENOTFOUND", "nf"⟩ ⟨"ENOTFOUND", "nf"⟩ "dns_tmp" 3 12
    "m9" 4 [] (by decide) (by decide) (by decide)

end MMN
